import Mathlib

/-!
# MediaCaptions: the caption component's binding and per-frame drain

A shallow embedding of `UMediaCaptionsComponent`
(`Source/MediaCaptions/MediaCaptionsComponent.cpp` / `.h`).

The component is a record of its member variables.  Shared pointers to sample
queues are addresses into a store of queue objects (`State.queues`), so that
two queues with equal contents remain distinguishable.  `UpdatePlayer`,
`OnGenerateMediaCaptions` and `TickComponent` return the new state together
with the calls they made on their collaborators (`Event`), in program order;
the other member functions make no such call and return the new state only.

The producer thread is the operation `Enqueue`.  It can run between frame
ticks (`run`) and also inside one, between the two halves of `TickComponent`
(`TickComponentInterleaved`, `runActions`).

Numeric abstractions: `FTimespan` is its 64-bit tick count, an `Int`; the play
rate (a `float` in the source) is an `Int`, of which the code only ever tests
`!= 0.0f`.  Locks (`FScopeLock`) have no sequential effect and are omitted.
-/

namespace MediaCaptions

/-! ## Collaborators -/

/-- Overlay sample as the component reads it: `GetTime().Time` and `GetText()`. -/
structure Sample where
  time : Int
  text : String
deriving DecidableEq, Repr

/-- Modelled from the spec: `FTimespan::MinValue()` (engine type, not in the
repository), the "none" value of LastSampleMarker; the smallest 64-bit tick
count. -/
def FTimespan.MinValue : Int := -(2 ^ 63)

/-- Modelled from the spec: `FTimespan::Zero()` (engine type, not in the
repository), the zero playback time. -/
def FTimespan.Zero : Int := 0

/-- Modelled from the spec: a live `UMediaPlayer` as the component queries it
in one frame (engine class, not in the repository): the identity of the facade
returned by `GetPlayerFacade()` and that facade's `GetRate()` / `GetTime()`. -/
structure Player where
  facade : Nat
  rate : Int
  time : Int
deriving DecidableEq, Repr

/-- Object store of one frame: which player addresses hold a live player.
`none` is a destroyed (or never created) player, to which a weak pointer
resolves as `nullptr`. -/
abbrev World := Nat → Option Player

/-- Calls the component makes on its collaborators. -/
inductive Event where
  /-- The call `PlayerFacade->AddCaptionSampleSink(NewSampleQueue)`. -/
  | AddCaptionSampleSink (facade queue : Nat)
  /-- The call `PinnedSampleQueue->Dequeue(Sample)` and the sample it returned. -/
  | Dequeue (queue : Nat) (sample : Sample)
  /-- The call `OnNewCaptionText.Broadcast(text)`. -/
  | Broadcast (text : String)
deriving DecidableEq, Repr

/-! ## Component state -/

/-- Member variables of `UMediaCaptionsComponent`, the activation flags of its
base class, and the store of sample-queue objects. -/
structure State where
  /-- Base-class flag read by `IsActive()`. -/
  bIsActive : Bool
  /-- Base-class flag written by `SetComponentTickEnabled`. -/
  bTickEnabled : Bool
  CachedRate : Int
  CachedTime : Int
  /-- Weak pointer to the player: a player address, or null. -/
  CurrentPlayer : Option Nat
  /-- Weak pointer to the facade providing samples: a facade identity, or null. -/
  CurrentPlayerFacade : Option Nat
  /-- Shared pointer to the bound queue: a queue address, or null. -/
  SampleQueue : Option Nat
  LastPlaySampleTime : Int
  /-- Modelled from the spec: the `TMediaSampleQueue` objects created so far
  (engine template, not in the repository), by address; each is a FIFO whose
  head is the next sample to dequeue. -/
  queues : List (List Sample)
deriving DecidableEq, Repr

/-- Constructor: rate 0, time zero, marker `MinValue`, all pointers null.
The component can tick from the start (`bCanEverTick`). -/
def construct : State :=
  { bIsActive := false
    bTickEnabled := true
    CachedRate := 0
    CachedTime := FTimespan.Zero
    CurrentPlayer := none
    CurrentPlayerFacade := none
    SampleQueue := none
    LastPlaySampleTime := FTimespan.MinValue
    queues := [] }

/-- Modelled from the spec: `UActorComponent::IsActive()` (engine base class,
not in the repository): whether the consumer is active. -/
def IsActive (s : State) : Bool := s.bIsActive

/-- Modelled from the spec: `UActorComponent::ShouldActivate()` (engine base
class, not in the repository): a component that is not active should activate. -/
def ShouldActivate (s : State) : Bool := !IsActive s

/-- Modelled from the spec: `Super::Activate(bReset)` (engine base class, not
in the repository): the consumer becomes active and ticks. -/
def SuperActivate (bReset : Bool) (s : State) : State :=
  if bReset || ShouldActivate s then { s with bTickEnabled := true, bIsActive := true } else s

/-- Modelled from the spec: `Super::Deactivate()` (engine base class, not in
the repository): an active consumer becomes inactive and stops ticking. -/
def SuperDeactivate (s : State) : State :=
  if !ShouldActivate s then { s with bTickEnabled := false, bIsActive := false } else s

/-- Contents of the queue object at address `q` (empty when there is none). -/
def queueAt (s : State) (q : Nat) : List Sample := (s.queues[q]?).getD []

/-! ## Member functions -/

/-- Source function `SetMediaPlayer`. -/
def SetMediaPlayer (NewMediaPlayer : Option Nat) (s : State) : State :=
  { s with CurrentPlayer := NewMediaPlayer }

/-- Source function `UpdatePlayer`, run against the object store `w` of the frame. -/
def UpdatePlayer (w : World) (s : State) : State × List Event :=
  match s.CurrentPlayer.bind w with
  | none =>
    ({ s with CachedRate := 0, CachedTime := FTimespan.Zero, SampleQueue := none }, [])
  | some CurrentPlayerPtr =>
    let PlayerFacade := CurrentPlayerPtr.facade
    -- create a new sample queue if the player changed
    let r : State × List Event :=
      if some PlayerFacade ≠ s.CurrentPlayerFacade then
        if IsActive s then
          let NewSampleQueue := s.queues.length
          ({ s with
              queues := s.queues ++ [[]]
              SampleQueue := some NewSampleQueue
              CurrentPlayerFacade := some PlayerFacade },
           [Event.AddCaptionSampleSink PlayerFacade NewSampleQueue])
        else (s, [])
      else
        if !IsActive s then
          ({ s with SampleQueue := none, CurrentPlayerFacade := none }, [])
        else (s, [])
    -- caching play rate and time
    ({ r.1 with CachedRate := CurrentPlayerPtr.rate, CachedTime := CurrentPlayerPtr.time }, r.2)

/-- Source function `OnGenerateMediaCaptions`. -/
def OnGenerateMediaCaptions (s : State) : State × List Event :=
  match s.SampleQueue, decide (s.CachedRate ≠ 0) with
  | some PinnedSampleQueue, true =>
    match queueAt s PinnedSampleQueue with
    | [] => (s, [])
    | Sample :: rest =>
      ({ s with
          queues := s.queues.set PinnedSampleQueue rest
          LastPlaySampleTime := Sample.time },
       [Event.Dequeue PinnedSampleQueue Sample, Event.Broadcast Sample.text])
  | _, _ => ({ s with LastPlaySampleTime := FTimespan.MinValue }, [])

/-- Source function `TickComponent`: `UpdatePlayer` then `OnGenerateMediaCaptions`. -/
def TickComponent (w : World) (s : State) : State × List Event :=
  let u := UpdatePlayer w s
  let g := OnGenerateMediaCaptions u.1
  (g.1, u.2 ++ g.2)

/-- Source function `Activate`. -/
def Activate (bReset : Bool) (s : State) : State :=
  let s1 := if bReset || ShouldActivate s then { s with bTickEnabled := true } else s
  SuperActivate bReset s1

/-- Source function `Deactivate`. -/
def Deactivate (s : State) : State :=
  let s1 :=
    if !ShouldActivate s then
      { s with bTickEnabled := false, SampleQueue := none, CurrentPlayerFacade := none }
    else s
  SuperDeactivate s1

/-- Modelled from the spec: `enqueue(sample)` of the producer thread (decode
pipeline, not in the repository): appends to the tail of the queue object at
address `q`, if there is one. -/
def Enqueue (q : Nat) (sample : Sample) (s : State) : State :=
  { s with queues := s.queues.set q (queueAt s q ++ [sample]) }

/-! ## Runs -/

/-- What can happen to a component between construction and destruction. -/
inductive Op where
  | SetMediaPlayer (NewMediaPlayer : Option Nat)
  | Activate (bReset : Bool)
  | Deactivate
  | Tick (w : World)
  | Enqueue (q : Nat) (sample : Sample)

/-- One operation. -/
def step (o : Op) (s : State) : State × List Event :=
  match o with
  | Op.SetMediaPlayer p => (SetMediaPlayer p s, [])
  | Op.Activate b => (Activate b s, [])
  | Op.Deactivate => (Deactivate s, [])
  | Op.Tick w => TickComponent w s
  | Op.Enqueue q x => (Enqueue q x s, [])

/-- A sequence of operations, left to right, with all the calls made. -/
def run : List Op → State → State × List Event
  | [], s => (s, [])
  | o :: os, s =>
    let r := step o s
    let r2 := run os r.1
    (r2.1, r.2 ++ r2.2)

/-- Consecutive frame ticks, one per object store, keeping the calls of each
tick apart. -/
def ticks : List World → State → State × List (List Event)
  | [], s => (s, [])
  | w :: ws, s =>
    let r := TickComponent w s
    let r2 := ticks ws r.1
    (r2.1, r.2 :: r2.2)

/-- Texts passed to `OnNewCaptionText.Broadcast`, in order. -/
def broadcasts : List Event → List String
  | [] => []
  | Event.Broadcast t :: es => t :: broadcasts es
  | _ :: es => broadcasts es

/-- Dequeued samples with the address of the queue each came from, in order. -/
def dequeued : List Event → List (Nat × Sample)
  | [] => []
  | Event.Dequeue q x :: es => (q, x) :: dequeued es
  | _ :: es => dequeued es

/-- Number of `AddCaptionSampleSink` calls (each follows one queue creation). -/
def sinksAdded : List Event → Nat
  | [] => 0
  | Event.AddCaptionSampleSink _ _ :: es => sinksAdded es + 1
  | _ :: es => sinksAdded es

/-- World in which player address `a` holds the live player `p` and every
other address is dead. -/
def worldOf (a : Nat) (p : Player) : World := fun b => if b = a then some p else none

/-- Producer enqueues in order; each pair is a queue address and a sample. -/
def enqueueAll : List (Nat × Sample) → State → State
  | [], s => s
  | e :: es, s => enqueueAll es (Enqueue e.1 e.2 s)

/-- Source function `TickComponent` with the producer thread running during
the frame: the enqueues `mid` land after `UpdatePlayer` has returned (hence
after any `AddCaptionSampleSink`) and before `OnGenerateMediaCaptions` reads
the bound queue.  With `mid = []` this is `TickComponent`. -/
def TickComponentInterleaved (mid : List (Nat × Sample)) (w : World) (s : State) :
    State × List Event :=
  let u := UpdatePlayer w s
  let g := OnGenerateMediaCaptions (enqueueAll mid u.1)
  (g.1, u.2 ++ g.2)

/-- Queue `Q` exists and is not the bound queue. -/
def Retired (Q : Nat) (s : State) : Prop :=
  Q < s.queues.length ∧ s.SampleQueue ≠ some Q

/-- Every broadcast text is the text of a sample dequeued in the same calls,
in the same order. -/
def Paired (ev : List Event) : Prop :=
  broadcasts ev = (dequeued ev).map (fun e => e.2.text)

/-- Number of `Deactivate` calls in a sequence of operations. -/
def deactivations : List Op → Nat
  | [] => 0
  | Op.Deactivate :: os => deactivations os + 1
  | _ :: os => deactivations os

/-- Operation `o` keeps the producer identity: it does not set the player, and
if it is a frame tick, the player pointer `cp` resolves in its frame to a live
player whose facade is `F`. -/
def keepsProducer (cp : Option Nat) (F : Nat) : Op → Prop
  | Op.Tick w => ∃ p, cp.bind w = some p ∧ p.facade = F
  | Op.SetMediaPlayer _ => False
  | _ => True

/-- Whether the next tick with facade `F` has to create a queue (1) or finds
the active consumer already recorded against `F` (0). -/
def pending (F : Nat) (s : State) : Nat :=
  if s.bIsActive = true ∧ s.CurrentPlayerFacade = some F then 0 else 1

/-- The marker is `MinValue` or the timestamp of the last sample dequeued in
the calls `ev`. -/
def MarkerOk (s : State) (ev : List Event) : Prop :=
  s.LastPlaySampleTime = FTimespan.MinValue ∨
  ∃ q x, (dequeued ev).getLast? = some (q, x) ∧ x.time = s.LastPlaySampleTime

/-! ## Single-step facts -/

/-- With an active consumer already bound to the facade of the current player,
`UpdatePlayer` only refreshes the cached rate and time. -/
theorem UpdatePlayer_of_bound (w : World) (s : State) (p : Player)
    (hactive : IsActive s = true)
    (hplayer : s.CurrentPlayer.bind w = some p)
    (hbound : s.CurrentPlayerFacade = some p.facade) :
    UpdatePlayer w s = ({ s with CachedRate := p.rate, CachedTime := p.time }, []) := by
  simp [UpdatePlayer, hplayer, hbound, hactive]

/-- With no live player, `UpdatePlayer` zeroes the cache and drops the queue. -/
theorem UpdatePlayer_of_null (w : World) (s : State)
    (hplayer : s.CurrentPlayer.bind w = none) :
    UpdatePlayer w s =
      ({ s with CachedRate := 0, CachedTime := FTimespan.Zero, SampleQueue := none }, []) := by
  simp [UpdatePlayer, hplayer]

/-- With an active consumer whose recorded facade differs from the facade of
the current player, `UpdatePlayer` creates a queue, registers it and binds it. -/
theorem UpdatePlayer_of_changed (w : World) (s : State) (p : Player)
    (hactive : IsActive s = true)
    (hplayer : s.CurrentPlayer.bind w = some p)
    (hchanged : s.CurrentPlayerFacade ≠ some p.facade) :
    UpdatePlayer w s =
      ({ s with
          queues := s.queues ++ [[]]
          SampleQueue := some s.queues.length
          CurrentPlayerFacade := some p.facade
          CachedRate := p.rate
          CachedTime := p.time },
       [Event.AddCaptionSampleSink p.facade s.queues.length]) := by
  have h : ¬ (some p.facade = s.CurrentPlayerFacade) := fun e => hchanged e.symm
  simp [UpdatePlayer, hplayer, h, hactive]

/-- While playing with a non-empty bound queue, the drain takes the head. -/
theorem OnGenerateMediaCaptions_of_head (s : State) (q : Nat) (x : Sample)
    (rest : List Sample)
    (hq : s.SampleQueue = some q)
    (hrate : s.CachedRate ≠ 0)
    (hqueue : s.queues[q]? = some (x :: rest)) :
    OnGenerateMediaCaptions s =
      ({ s with queues := s.queues.set q rest, LastPlaySampleTime := x.time },
       [Event.Dequeue q x, Event.Broadcast x.text]) := by
  simp [OnGenerateMediaCaptions, hq, hrate, queueAt, hqueue]

/-- While playing with an empty bound queue, the drain does nothing. -/
theorem OnGenerateMediaCaptions_of_empty (s : State) (q : Nat)
    (hq : s.SampleQueue = some q)
    (hrate : s.CachedRate ≠ 0)
    (hqueue : queueAt s q = []) :
    OnGenerateMediaCaptions s = (s, []) := by
  simp [OnGenerateMediaCaptions, hq, hrate, hqueue]

/-- With no bound queue the drain only sets the marker to `MinValue`. -/
theorem OnGenerateMediaCaptions_of_unbound (s : State)
    (hq : s.SampleQueue = none) :
    OnGenerateMediaCaptions s =
      ({ s with LastPlaySampleTime := FTimespan.MinValue }, []) := by
  simp [OnGenerateMediaCaptions, hq]

/-- With a zero cached rate the drain only sets the marker to `MinValue`. -/
theorem OnGenerateMediaCaptions_of_paused (s : State)
    (hrate : s.CachedRate = 0) :
    OnGenerateMediaCaptions s =
      ({ s with LastPlaySampleTime := FTimespan.MinValue }, []) := by
  cases hq : s.SampleQueue <;> simp [OnGenerateMediaCaptions, hq, hrate]

/-- One frame tick of an active, bound, playing consumer whose queue is not
empty: the head is dequeued and broadcast, nothing else changes but the cache. -/
theorem TickComponent_of_playing (w : World) (s : State) (p : Player) (q : Nat)
    (x : Sample) (rest : List Sample)
    (hactive : IsActive s = true)
    (hplayer : s.CurrentPlayer.bind w = some p)
    (hbound : s.CurrentPlayerFacade = some p.facade)
    (hrate : p.rate ≠ 0)
    (hq : s.SampleQueue = some q)
    (hqueue : s.queues[q]? = some (x :: rest)) :
    TickComponent w s =
      ({ s with
          CachedRate := p.rate
          CachedTime := p.time
          queues := s.queues.set q rest
          LastPlaySampleTime := x.time },
       [Event.Dequeue q x, Event.Broadcast x.text]) := by
  have hgen := OnGenerateMediaCaptions_of_head
    { s with CachedRate := p.rate, CachedTime := p.time } q x rest hq hrate hqueue
  simp only [TickComponent, UpdatePlayer_of_bound w s p hactive hplayer hbound, hgen]
  simp

/-- One frame tick without a live player: the cache is zeroed, the queue is
dropped, the marker is `MinValue`, and no call is made. -/
theorem TickComponent_of_null (w : World) (s : State)
    (hplayer : s.CurrentPlayer.bind w = none) :
    TickComponent w s =
      ({ s with
          CachedRate := 0
          CachedTime := FTimespan.Zero
          SampleQueue := none
          LastPlaySampleTime := FTimespan.MinValue },
       []) := by
  simp [TickComponent, UpdatePlayer_of_null w s hplayer, OnGenerateMediaCaptions]

/-- An address that holds a queue object lies inside the store. -/
theorem lt_length_of_getElem? {α : Type} (l : List α) (q : Nat) (a : α)
    (h : l[q]? = some a) : q < l.length := by
  rcases Nat.lt_or_ge q l.length with h1 | h1
  · exact h1
  · rw [List.getElem?_eq_none h1] at h
    cases h

/-- Draining a whole queue, one tick per sample. -/
theorem ticks_drain (F q : Nat) (S : List Sample) :
    ∀ (ws : List World) (s : State),
      ws.length = S.length →
      IsActive s = true →
      s.CurrentPlayerFacade = some F →
      (∀ w ∈ ws, ∃ p, s.CurrentPlayer.bind w = some p ∧ p.facade = F ∧ p.rate ≠ 0) →
      s.SampleQueue = some q →
      s.queues[q]? = some S →
      (ticks ws s).2 = S.map (fun x => [Event.Dequeue q x, Event.Broadcast x.text]) ∧
      (ticks ws s).1.queues[q]? = some [] ∧
      (ticks ws s).1.SampleQueue = some q := by
  induction S with
  | nil =>
    intro ws s hlen _ _ _ hq hqueue
    have hws : ws = [] := List.length_eq_zero.mp hlen
    subst hws
    exact ⟨rfl, hqueue, hq⟩
  | cons x rest ih =>
    intro ws s hlen hactive hbound hplay hq hqueue
    cases ws with
    | nil => simp at hlen
    | cons w ws =>
      obtain ⟨p, hp, hF, hrate⟩ := hplay w (List.mem_cons_self w ws)
      have hbound2 : s.CurrentPlayerFacade = some p.facade := by rw [hF]; exact hbound
      have htick := TickComponent_of_playing w s p q x rest hactive hp hbound2 hrate hq hqueue
      have hlt := lt_length_of_getElem? s.queues q (x :: rest) hqueue
      have hrec := ih ws (TickComponent w s).1
        (by simpa using hlen)
        (by rw [htick]; exact hactive)
        (by rw [htick]; exact hbound)
        (by
          intro w2 hw2
          rw [htick]
          exact hplay w2 (List.mem_cons_of_mem w hw2))
        (by rw [htick]; exact hq)
        (by rw [htick]; simp [hlt])
      refine ⟨?_, hrec.2.1, hrec.2.2⟩
      simp only [ticks, List.map_cons, hrec.1]
      rw [htick]

/-- Ticks without a live player make no call and leave the consumer idle. -/
theorem ticks_of_null :
    ∀ (ws : List World) (s : State),
      (∀ w ∈ ws, s.CurrentPlayer.bind w = none) →
      (ticks ws s).2 = ws.map (fun _ => []) ∧
      (ticks ws s).1.CurrentPlayer = s.CurrentPlayer ∧
      (ws ≠ [] →
        (ticks ws s).1.CachedRate = 0 ∧
        (ticks ws s).1.CachedTime = FTimespan.Zero ∧
        (ticks ws s).1.SampleQueue = none ∧
        (ticks ws s).1.LastPlaySampleTime = FTimespan.MinValue) := by
  intro ws
  induction ws with
  | nil => intro s _; exact ⟨rfl, rfl, fun h => absurd rfl h⟩
  | cons w ws ih =>
    intro s hnull
    have htick := TickComponent_of_null w s (hnull w (List.mem_cons_self w ws))
    have hrec := ih (TickComponent w s).1 (by
      intro w2 hw2
      rw [htick]
      exact hnull w2 (List.mem_cons_of_mem w hw2))
    refine ⟨?_, ?_, ?_⟩
    · simp only [ticks, List.map_cons, hrec.1]
      rw [htick]
    · simp only [ticks, hrec.2.1]
      rw [htick]
    · intro _
      cases ws with
      | nil => simp only [ticks]; rw [htick]; exact ⟨rfl, rfl, rfl, rfl⟩
      | cons w2 ws2 => exact hrec.2.2 (List.cons_ne_nil w2 ws2)

/-- Source function `Activate`, with the base class inlined: it has an effect
when `bReset` is set or the component is not active. -/
theorem Activate_eq (b : Bool) (s : State) :
    Activate b s =
      if b || !s.bIsActive then { s with bTickEnabled := true, bIsActive := true } else s := by
  cases ha : s.bIsActive <;> cases b <;>
    simp [Activate, SuperActivate, ShouldActivate, IsActive, ha]

/-- Source function `Deactivate`, with the base class inlined: it has an
effect only on an active component. -/
theorem Deactivate_eq (s : State) :
    Deactivate s =
      if s.bIsActive then
        { s with
            bTickEnabled := false
            SampleQueue := none
            CurrentPlayerFacade := none
            bIsActive := false }
      else s := by
  cases ha : s.bIsActive <;>
    simp [Deactivate, SuperDeactivate, ShouldActivate, IsActive, ha]

/-! ## What the two halves of a tick leave alone -/

/-- The drain never touches the binding, the activation or the cache, and it
never creates or destroys a queue object. -/
theorem OnGenerateMediaCaptions_frame (s : State) :
    (OnGenerateMediaCaptions s).1.SampleQueue = s.SampleQueue ∧
    (OnGenerateMediaCaptions s).1.CurrentPlayerFacade = s.CurrentPlayerFacade ∧
    (OnGenerateMediaCaptions s).1.CurrentPlayer = s.CurrentPlayer ∧
    (OnGenerateMediaCaptions s).1.bIsActive = s.bIsActive ∧
    (OnGenerateMediaCaptions s).1.CachedRate = s.CachedRate ∧
    (OnGenerateMediaCaptions s).1.queues.length = s.queues.length := by
  unfold OnGenerateMediaCaptions
  split
  · split <;> simp
  · simp

/-- The drain makes no call at all, or one `Dequeue` on the bound queue
followed by one `Broadcast` of the text of the dequeued sample, whose
timestamp becomes the marker. -/
theorem OnGenerateMediaCaptions_calls (s : State) :
    ((OnGenerateMediaCaptions s).2 = [] ∧
      (OnGenerateMediaCaptions s).1.queues = s.queues ∧
      ((OnGenerateMediaCaptions s).1.LastPlaySampleTime = s.LastPlaySampleTime ∨
       (OnGenerateMediaCaptions s).1.LastPlaySampleTime = FTimespan.MinValue)) ∨
    (∃ q x, s.SampleQueue = some q ∧
      (OnGenerateMediaCaptions s).2 = [Event.Dequeue q x, Event.Broadcast x.text] ∧
      (OnGenerateMediaCaptions s).1.LastPlaySampleTime = x.time) := by
  cases hq : s.SampleQueue with
  | none =>
    rw [OnGenerateMediaCaptions_of_unbound s hq]
    exact Or.inl ⟨rfl, rfl, Or.inr rfl⟩
  | some q =>
    by_cases hr : s.CachedRate = 0
    · rw [OnGenerateMediaCaptions_of_paused s hr]
      exact Or.inl ⟨rfl, rfl, Or.inr rfl⟩
    · cases hl : s.queues[q]? with
      | none =>
        rw [OnGenerateMediaCaptions_of_empty s q hq hr (by simp [queueAt, hl])]
        exact Or.inl ⟨rfl, rfl, Or.inl rfl⟩
      | some l =>
        cases l with
        | nil =>
          rw [OnGenerateMediaCaptions_of_empty s q hq hr (by simp [queueAt, hl])]
          exact Or.inl ⟨rfl, rfl, Or.inl rfl⟩
        | cons x rest =>
          rw [OnGenerateMediaCaptions_of_head s q x rest hq hr hl]
          exact Or.inr ⟨q, x, rfl, rfl, rfl⟩

/-- Source function `UpdatePlayer` never touches the player pointer, the
activation or the marker. -/
theorem UpdatePlayer_frame (w : World) (s : State) :
    (UpdatePlayer w s).1.CurrentPlayer = s.CurrentPlayer ∧
    (UpdatePlayer w s).1.bIsActive = s.bIsActive ∧
    (UpdatePlayer w s).1.LastPlaySampleTime = s.LastPlaySampleTime := by
  unfold UpdatePlayer
  split
  · simp
  · dsimp only
    split_ifs <;> simp

/-- Source function `UpdatePlayer` either makes no call, keeps all queue
objects and keeps or drops the bound queue, or it creates one queue object at
the next free address, registers it and binds it. -/
theorem UpdatePlayer_calls (w : World) (s : State) :
    ((UpdatePlayer w s).2 = [] ∧
      (UpdatePlayer w s).1.queues = s.queues ∧
      ((UpdatePlayer w s).1.SampleQueue = s.SampleQueue ∨
       (UpdatePlayer w s).1.SampleQueue = none)) ∨
    (∃ p, s.CurrentPlayer.bind w = some p ∧
      s.CurrentPlayerFacade ≠ some p.facade ∧
      IsActive s = true ∧
      (UpdatePlayer w s).2 = [Event.AddCaptionSampleSink p.facade s.queues.length] ∧
      (UpdatePlayer w s).1.queues = s.queues ++ [[]] ∧
      (UpdatePlayer w s).1.SampleQueue = some s.queues.length ∧
      (UpdatePlayer w s).1.CurrentPlayerFacade = some p.facade) := by
  cases hp : s.CurrentPlayer.bind w with
  | none =>
    rw [UpdatePlayer_of_null w s hp]
    exact Or.inl ⟨rfl, rfl, Or.inr rfl⟩
  | some p =>
    by_cases hf : s.CurrentPlayerFacade = some p.facade
    · have hf2 : some p.facade = s.CurrentPlayerFacade := hf.symm
      by_cases ha : IsActive s = true
      · rw [UpdatePlayer_of_bound w s p ha hp hf]
        exact Or.inl ⟨rfl, rfl, Or.inl rfl⟩
      · refine Or.inl ?_
        simp [UpdatePlayer, hp, hf2, ha]
    · have hf2 : ¬ (some p.facade = s.CurrentPlayerFacade) := fun e => hf e.symm
      by_cases ha : IsActive s = true
      · refine Or.inr ⟨p, rfl, hf, ha, ?_⟩
        rw [UpdatePlayer_of_changed w s p ha hp hf]
        exact ⟨rfl, rfl, rfl, rfl⟩
      · refine Or.inl ?_
        simp [UpdatePlayer, hp, hf2, ha]

/-! ## Projections of a list of calls -/

theorem broadcasts_append (a b : List Event) :
    broadcasts (a ++ b) = broadcasts a ++ broadcasts b := by
  induction a with
  | nil => rfl
  | cons e es ih => cases e <;> simp [broadcasts, ih]

theorem dequeued_append (a b : List Event) :
    dequeued (a ++ b) = dequeued a ++ dequeued b := by
  induction a with
  | nil => rfl
  | cons e es ih => cases e <;> simp [dequeued, ih]

theorem sinksAdded_append (a b : List Event) :
    sinksAdded (a ++ b) = sinksAdded a + sinksAdded b := by
  induction a with
  | nil => simp [sinksAdded]
  | cons e es ih =>
    cases e with
    | AddCaptionSampleSink f q =>
      show sinksAdded (es ++ b) + 1 = sinksAdded es + 1 + sinksAdded b
      rw [ih]
      omega
    | Dequeue q x => simpa [sinksAdded] using ih
    | Broadcast x => simpa [sinksAdded] using ih

/-! ## A queue that is no longer bound is never read again -/

/-- Source function `UpdatePlayer` dequeues and broadcasts nothing. -/
theorem UpdatePlayer_silent (w : World) (s : State) :
    broadcasts (UpdatePlayer w s).2 = [] ∧ dequeued (UpdatePlayer w s).2 = [] := by
  rcases UpdatePlayer_calls w s with ⟨h1, _, _⟩ | ⟨p, _, _, _, h1, _, _, _⟩
  · rw [h1]; exact ⟨rfl, rfl⟩
  · rw [h1]; exact ⟨rfl, rfl⟩

theorem UpdatePlayer_retired (Q : Nat) (w : World) (s : State) (h : Retired Q s) :
    Retired Q (UpdatePlayer w s).1 := by
  rcases UpdatePlayer_calls w s with ⟨_, h2, h3⟩ | ⟨p, _, _, _, _, h2, h3, _⟩
  · refine ⟨by rw [h2]; exact h.1, ?_⟩
    rcases h3 with h3 | h3
    · rw [h3]; exact h.2
    · rw [h3]; simp
  · refine ⟨by rw [h2]; simp; have := h.1; omega, ?_⟩
    rw [h3]
    intro e
    have e2 : s.queues.length = Q := Option.some.inj e
    have := h.1
    omega

theorem OnGenerateMediaCaptions_retired (Q : Nat) (s : State) (h : Retired Q s) :
    Retired Q (OnGenerateMediaCaptions s).1 ∧
    ∀ e ∈ dequeued (OnGenerateMediaCaptions s).2, e.1 ≠ Q := by
  have hf := OnGenerateMediaCaptions_frame s
  refine ⟨⟨by rw [hf.2.2.2.2.2]; exact h.1, by rw [hf.1]; exact h.2⟩, ?_⟩
  rcases OnGenerateMediaCaptions_calls s with ⟨h1, _, _⟩ | ⟨q, x, hq, h1, _⟩
  · rw [h1]
    intro e he
    simp [dequeued] at he
  · rw [h1]
    intro e he
    simp only [dequeued, List.mem_singleton] at he
    subst he
    intro e2
    apply h.2
    rw [hq]
    exact congrArg some e2

theorem OnGenerateMediaCaptions_paired (s : State) : Paired (OnGenerateMediaCaptions s).2 := by
  rcases OnGenerateMediaCaptions_calls s with ⟨h1, _, _⟩ | ⟨q, x, _, h1, _⟩
  · rw [h1]; rfl
  · rw [h1]; rfl

theorem TickComponent_retired (Q : Nat) (w : World) (s : State) (h : Retired Q s) :
    Retired Q (TickComponent w s).1 ∧
    ∀ e ∈ dequeued (TickComponent w s).2, e.1 ≠ Q := by
  have hg := OnGenerateMediaCaptions_retired Q (UpdatePlayer w s).1 (UpdatePlayer_retired Q w s h)
  refine ⟨hg.1, ?_⟩
  show ∀ e ∈ dequeued ((UpdatePlayer w s).2 ++ (OnGenerateMediaCaptions (UpdatePlayer w s).1).2),
    e.1 ≠ Q
  rw [dequeued_append, (UpdatePlayer_silent w s).2, List.nil_append]
  exact hg.2

theorem TickComponent_paired (w : World) (s : State) : Paired (TickComponent w s).2 := by
  show broadcasts ((UpdatePlayer w s).2 ++ (OnGenerateMediaCaptions (UpdatePlayer w s).1).2) =
    (dequeued ((UpdatePlayer w s).2 ++ (OnGenerateMediaCaptions (UpdatePlayer w s).1).2)).map
      (fun e => e.2.text)
  rw [broadcasts_append, dequeued_append, (UpdatePlayer_silent w s).1, (UpdatePlayer_silent w s).2]
  exact OnGenerateMediaCaptions_paired (UpdatePlayer w s).1

theorem step_retired (Q : Nat) (o : Op) (s : State) (h : Retired Q s) :
    Retired Q (step o s).1 ∧ ∀ e ∈ dequeued (step o s).2, e.1 ≠ Q := by
  cases o with
  | Tick w => exact TickComponent_retired Q w s h
  | SetMediaPlayer p => exact ⟨h, by intro e he; simp [step, dequeued] at he⟩
  | Activate b =>
    refine ⟨?_, by intro e he; simp [step, dequeued] at he⟩
    have hq : (Activate b s).queues = s.queues ∧ (Activate b s).SampleQueue = s.SampleQueue := by
      rw [Activate_eq]
      split_ifs <;> exact ⟨rfl, rfl⟩
    exact ⟨by show Q < (Activate b s).queues.length; rw [hq.1]; exact h.1,
      by show (Activate b s).SampleQueue ≠ some Q; rw [hq.2]; exact h.2⟩
  | Deactivate =>
    refine ⟨?_, by intro e he; simp [step, dequeued] at he⟩
    have hq : (Deactivate s).queues = s.queues ∧
        ((Deactivate s).SampleQueue = s.SampleQueue ∨ (Deactivate s).SampleQueue = none) := by
      rw [Deactivate_eq]
      split_ifs
      · exact ⟨rfl, Or.inr rfl⟩
      · exact ⟨rfl, Or.inl rfl⟩
    refine ⟨by show Q < (Deactivate s).queues.length; rw [hq.1]; exact h.1, ?_⟩
    show (Deactivate s).SampleQueue ≠ some Q
    rcases hq.2 with h3 | h3
    · rw [h3]; exact h.2
    · rw [h3]; simp
  | Enqueue q x =>
    refine ⟨⟨?_, h.2⟩, by intro e he; simp [step, dequeued] at he⟩
    show Q < (Enqueue q x s).queues.length
    simp only [Enqueue, List.length_set]
    exact h.1

theorem step_paired (o : Op) (s : State) : Paired (step o s).2 := by
  cases o with
  | Tick w => exact TickComponent_paired w s
  | SetMediaPlayer p => rfl
  | Activate b => rfl
  | Deactivate => rfl
  | Enqueue q x => rfl

/-- In every run, the broadcast texts are the texts of the dequeued samples. -/
theorem run_paired : ∀ (ops : List Op) (s : State), Paired (run ops s).2 := by
  intro ops
  induction ops with
  | nil => intro s; rfl
  | cons o os ih =>
    intro s
    show broadcasts ((step o s).2 ++ (run os (step o s).1).2) =
      (dequeued ((step o s).2 ++ (run os (step o s).1).2)).map (fun e => e.2.text)
    rw [broadcasts_append, dequeued_append, List.map_append]
    have e1 : broadcasts (step o s).2 = (dequeued (step o s).2).map (fun e => e.2.text) :=
      step_paired o s
    have e2 : broadcasts (run os (step o s).1).2 =
        (dequeued (run os (step o s).1).2).map (fun e => e.2.text) := ih (step o s).1
    rw [e1, e2]

/-- Whatever happens later, a retired queue is never dequeued from. -/
theorem run_retired (Q : Nat) :
    ∀ (ops : List Op) (s : State), Retired Q s →
      Retired Q (run ops s).1 ∧ ∀ e ∈ dequeued (run ops s).2, e.1 ≠ Q := by
  intro ops
  induction ops with
  | nil => intro s h; exact ⟨h, by intro e he; simp [run, dequeued] at he⟩
  | cons o os ih =>
    intro s h
    have h1 := step_retired Q o s h
    have h2 := ih (step o s).1 h1.1
    refine ⟨h2.1, ?_⟩
    show ∀ e ∈ dequeued ((step o s).2 ++ (run os (step o s).1).2), e.1 ≠ Q
    rw [dequeued_append]
    intro e he
    rcases List.mem_append.mp he with he | he
    · exact h1.2 e he
    · exact h2.2 e he

/-! ## Runs at the granularity of the halves of a tick -/

/-- A tick without producer enqueues between its halves is `TickComponent`. -/
theorem TickComponentInterleaved_nil (w : World) (s : State) :
    TickComponentInterleaved [] w s = TickComponent w s := rfl

/-! ## The tick that rebinds -/

/-- The drain never registers a sink. -/
theorem OnGenerateMediaCaptions_sinksAdded (s : State) :
    sinksAdded (OnGenerateMediaCaptions s).2 = 0 := by
  rcases OnGenerateMediaCaptions_calls s with ⟨h1, _, _⟩ | ⟨q, x, _, h1, _⟩
  · rw [h1]; rfl
  · rw [h1]; rfl

/-- A tick with the facade `F` creates a queue only if one was pending, and
then none is pending any more. -/
theorem TickComponent_pending (F : Nat) (w : World) (s : State) (p : Player)
    (hplayer : s.CurrentPlayer.bind w = some p) (hF : p.facade = F) :
    sinksAdded (TickComponent w s).2 + pending F (TickComponent w s).1 ≤ pending F s := by
  have hf := OnGenerateMediaCaptions_frame (UpdatePlayer w s).1
  have hs : sinksAdded (TickComponent w s).2 = sinksAdded (UpdatePlayer w s).2 := by
    show sinksAdded ((UpdatePlayer w s).2 ++ (OnGenerateMediaCaptions (UpdatePlayer w s).1).2) = _
    rw [sinksAdded_append, OnGenerateMediaCaptions_sinksAdded]
    rfl
  have hp : pending F (TickComponent w s).1 = pending F (UpdatePlayer w s).1 := by
    show pending F (OnGenerateMediaCaptions (UpdatePlayer w s).1).1 = _
    unfold pending
    rw [hf.2.2.2.1, hf.2.1]
  rw [hs, hp]
  by_cases hb : s.bIsActive = true ∧ s.CurrentPlayerFacade = some F
  · rw [UpdatePlayer_of_bound w s p hb.1 hplayer (by rw [hF]; exact hb.2)]
    simp [pending, sinksAdded, hb]
  · have h1 : pending F s = 1 := by simp only [pending, if_neg hb]
    rw [h1]
    rcases UpdatePlayer_calls w s with ⟨h2, _, _⟩ | ⟨p2, hp2, _, ha, h2, _, _, h3⟩
    · rw [h2]
      simp only [sinksAdded, pending]
      split_ifs <;> omega
    · have hpp : p2 = p := Option.some.inj (hp2.symm.trans hplayer)
      have hact : (UpdatePlayer w s).1.bIsActive = true := by
        rw [(UpdatePlayer_frame w s).2.1]
        exact ha
      have h0 : pending F (UpdatePlayer w s).1 = 0 := by
        simp only [pending]
        rw [if_pos ⟨hact, by rw [h3, hpp, hF]⟩]
      rw [h2, h0]
      simp [sinksAdded]

/-- One operation that keeps the producer identity creates a queue only if one
was pending; only `Deactivate` makes one pending again. -/
theorem step_pending (F : Nat) (o : Op) (s : State)
    (hkeep : keepsProducer s.CurrentPlayer F o) :
    (step o s).1.CurrentPlayer = s.CurrentPlayer ∧
    sinksAdded (step o s).2 + pending F (step o s).1 ≤ pending F s + deactivations [o] := by
  cases o with
  | Tick w =>
    obtain ⟨p, hp, hF⟩ := hkeep
    refine ⟨?_, ?_⟩
    · show (OnGenerateMediaCaptions (UpdatePlayer w s).1).1.CurrentPlayer = _
      rw [(OnGenerateMediaCaptions_frame _).2.2.1, (UpdatePlayer_frame w s).1]
    · have := TickComponent_pending F w s p hp hF
      show sinksAdded (TickComponent w s).2 + pending F (TickComponent w s).1 ≤
        pending F s + deactivations [Op.Tick w]
      simp only [deactivations]
      omega
  | SetMediaPlayer p => exact absurd hkeep (by simp [keepsProducer])
  | Activate b =>
    refine ⟨?_, ?_⟩
    · show (Activate b s).CurrentPlayer = _
      rw [Activate_eq]
      split_ifs <;> rfl
    · show sinksAdded [] + pending F (Activate b s) ≤ pending F s + deactivations [Op.Activate b]
      rw [Activate_eq]
      simp only [sinksAdded, deactivations, pending]
      split_ifs <;> simp_all
  | Deactivate =>
    refine ⟨?_, ?_⟩
    · show (Deactivate s).CurrentPlayer = _
      rw [Deactivate_eq]
      split_ifs <;> rfl
    · show sinksAdded [] + pending F (Deactivate s) ≤ pending F s + deactivations [Op.Deactivate]
      simp only [sinksAdded, deactivations, pending]
      split_ifs <;> omega
  | Enqueue q x =>
    refine ⟨rfl, ?_⟩
    show sinksAdded [] + pending F (Enqueue q x s) ≤ pending F s + deactivations [Op.Enqueue q x]
    simp only [sinksAdded, deactivations, pending, Enqueue]
    omega

theorem deactivations_cons (o : Op) (os : List Op) :
    deactivations (o :: os) = deactivations [o] + deactivations os := by
  cases o <;> simp [deactivations]
  omega

/-- Over a run that keeps the producer identity, queue creations are paid for
by the initial pending creation and by the `Deactivate` calls. -/
theorem run_pending (F : Nat) :
    ∀ (ops : List Op) (s : State),
      (∀ o ∈ ops, keepsProducer s.CurrentPlayer F o) →
      sinksAdded (run ops s).2 + pending F (run ops s).1 ≤ pending F s + deactivations ops := by
  intro ops
  induction ops with
  | nil =>
    intro s _
    simp [run, sinksAdded, deactivations]
  | cons o os ih =>
    intro s hkeep
    have h1 := step_pending F o s (hkeep o (List.mem_cons_self o os))
    have h2 := ih (step o s).1 (by
      intro o2 ho2
      rw [h1.1]
      exact hkeep o2 (List.mem_cons_of_mem o ho2))
    show sinksAdded ((step o s).2 ++ (run os (step o s).1).2) + pending F (run os (step o s).1).1 ≤
      pending F s + deactivations (o :: os)
    rw [sinksAdded_append, deactivations_cons]
    omega

/-! ## The marker -/

/-- One operation keeps the marker and dequeues nothing, or sets the marker to
`MinValue` and dequeues nothing, or dequeues one sample and sets the marker to
its timestamp. -/
theorem step_marker (o : Op) (s : State) :
    (dequeued (step o s).2 = [] ∧
      ((step o s).1.LastPlaySampleTime = s.LastPlaySampleTime ∨
       (step o s).1.LastPlaySampleTime = FTimespan.MinValue)) ∨
    (∃ q x, dequeued (step o s).2 = [(q, x)] ∧ (step o s).1.LastPlaySampleTime = x.time) := by
  cases o with
  | Tick w =>
    have hu : dequeued (UpdatePlayer w s).2 = [] := by
      rcases UpdatePlayer_calls w s with ⟨h1, _, _⟩ | ⟨p, _, _, _, h1, _, _, _⟩
      · rw [h1]; rfl
      · rw [h1]; rfl
    have hd : dequeued (TickComponent w s).2 =
        dequeued (OnGenerateMediaCaptions (UpdatePlayer w s).1).2 := by
      show dequeued ((UpdatePlayer w s).2 ++ (OnGenerateMediaCaptions (UpdatePlayer w s).1).2) = _
      rw [dequeued_append, hu]
      rfl
    have hm := (UpdatePlayer_frame w s).2.2
    show (dequeued (TickComponent w s).2 = [] ∧
        ((TickComponent w s).1.LastPlaySampleTime = s.LastPlaySampleTime ∨
         (TickComponent w s).1.LastPlaySampleTime = FTimespan.MinValue)) ∨
      (∃ q x, dequeued (TickComponent w s).2 = [(q, x)] ∧
        (TickComponent w s).1.LastPlaySampleTime = x.time)
    rw [hd]
    rcases OnGenerateMediaCaptions_calls (UpdatePlayer w s).1 with
      ⟨h1, _, h3⟩ | ⟨q, x, _, h1, h3⟩
    · refine Or.inl ⟨by rw [h1]; rfl, ?_⟩
      rw [hm] at h3
      exact h3
    · exact Or.inr ⟨q, x, by rw [h1]; rfl, h3⟩
  | SetMediaPlayer p => exact Or.inl ⟨rfl, Or.inl rfl⟩
  | Activate b =>
    refine Or.inl ⟨rfl, Or.inl ?_⟩
    show (Activate b s).LastPlaySampleTime = _
    rw [Activate_eq]
    split_ifs <;> rfl
  | Deactivate =>
    refine Or.inl ⟨rfl, Or.inl ?_⟩
    show (Deactivate s).LastPlaySampleTime = _
    rw [Deactivate_eq]
    split_ifs <;> rfl
  | Enqueue q x => exact Or.inl ⟨rfl, Or.inl rfl⟩

/-- The marker invariant is kept by every run. -/
theorem run_marker :
    ∀ (ops : List Op) (s : State) (ev : List Event),
      MarkerOk s ev → MarkerOk (run ops s).1 (ev ++ (run ops s).2) := by
  intro ops
  induction ops with
  | nil =>
    intro s ev h
    simpa [run] using h
  | cons o os ih =>
    intro s ev h
    have hstep : MarkerOk (step o s).1 (ev ++ (step o s).2) := by
      rcases step_marker o s with ⟨h1, h2⟩ | ⟨q, x, h1, h2⟩
      · rcases h2 with h2 | h2
        · rcases h with h | ⟨q, x, h, hx⟩
          · exact Or.inl (h2.trans h)
          · refine Or.inr ⟨q, x, ?_, hx.trans h2.symm⟩
            rw [dequeued_append, h1, List.append_nil]
            exact h
        · exact Or.inl h2
      · refine Or.inr ⟨q, x, ?_, h2.symm⟩
        rw [dequeued_append, h1, List.getLast?_concat]
    have h2 := ih (step o s).1 (ev ++ (step o s).2) hstep
    show MarkerOk (run os (step o s).1).1 (ev ++ ((step o s).2 ++ (run os (step o s).1).2))
    rw [← List.append_assoc]
    exact h2

/-! ## Claims -/

/-- C1 (at most one per frame): with an active consumer bound to the facade of
the current player, a non-zero producer rate and a bound queue holding
`s1, s2, ...` (more than one sample), one frame tick dequeues and broadcasts
exactly once, the text of `s1`; it sets `LastPlaySampleTime` to the timestamp
of `s1` and leaves `s2, ...` in the queue in their order. -/
theorem tick_delivers_only_the_head (w : World) (s : State) (p : Player) (q : Nat)
    (s1 s2 : Sample) (rest : List Sample)
    (hactive : IsActive s = true)
    (hplayer : s.CurrentPlayer.bind w = some p)
    (hbound : s.CurrentPlayerFacade = some p.facade)
    (hrate : p.rate ≠ 0)
    (hq : s.SampleQueue = some q)
    (hqueue : s.queues[q]? = some (s1 :: s2 :: rest)) :
    (TickComponent w s).2 = [Event.Dequeue q s1, Event.Broadcast s1.text] ∧
    broadcasts (TickComponent w s).2 = [s1.text] ∧
    (TickComponent w s).1.LastPlaySampleTime = s1.time ∧
    (TickComponent w s).1.SampleQueue = some q ∧
    (TickComponent w s).1.queues[q]? = some (s2 :: rest) := by
  have hlt : q < s.queues.length := by
    rcases Nat.lt_or_ge q s.queues.length with h | h
    · exact h
    · rw [List.getElem?_eq_none h] at hqueue
      cases hqueue
  have hgen := OnGenerateMediaCaptions_of_head
    { s with CachedRate := p.rate, CachedTime := p.time } q s1 (s2 :: rest) hq hrate hqueue
  simp only [TickComponent, UpdatePlayer_of_bound w s p hactive hplayer hbound, hgen]
  simp [broadcasts, hq, hlt]

/-- C1 at a concrete input: three queued samples, one tick. -/
theorem tick_delivers_only_the_head_witness :
    (TickComponent (worldOf 0 ⟨7, 1, 40⟩)
      { construct with
          bIsActive := true, CurrentPlayer := some 0, CurrentPlayerFacade := some 7
          SampleQueue := some 0
          queues := [[⟨10, "a"⟩, ⟨20, "b"⟩, ⟨30, "c"⟩]] }).2
      = [Event.Dequeue 0 ⟨10, "a"⟩, Event.Broadcast "a"] ∧
    (TickComponent (worldOf 0 ⟨7, 1, 40⟩)
      { construct with
          bIsActive := true, CurrentPlayer := some 0, CurrentPlayerFacade := some 7
          SampleQueue := some 0
          queues := [[⟨10, "a"⟩, ⟨20, "b"⟩, ⟨30, "c"⟩]] }).1.queues[0]?
      = some [⟨20, "b"⟩, ⟨30, "c"⟩] :=
  have h := tick_delivers_only_the_head (worldOf 0 ⟨7, 1, 40⟩)
    { construct with
        bIsActive := true, CurrentPlayer := some 0, CurrentPlayerFacade := some 7
        SampleQueue := some 0
        queues := [[⟨10, "a"⟩, ⟨20, "b"⟩, ⟨30, "c"⟩]] }
    ⟨7, 1, 40⟩ 0 ⟨10, "a"⟩ ⟨20, "b"⟩ [⟨30, "c"⟩]
    rfl rfl rfl (by decide) rfl rfl
  ⟨h.1, h.2.2.2.2⟩

/-- C3 (pause suppresses delivery): with a cached rate of exactly zero and a
bound queue that is not empty, `OnGenerateMediaCaptions` broadcasts nothing,
dequeues nothing, leaves every queue as it was and sets `LastPlaySampleTime`
to `FTimespan::MinValue`. -/
theorem paused_drain_consumes_nothing (s : State) (q : Nat)
    (hrate : s.CachedRate = 0)
    (hq : s.SampleQueue = some q)
    (hqueue : queueAt s q ≠ []) :
    (OnGenerateMediaCaptions s).2 = [] ∧
    broadcasts (OnGenerateMediaCaptions s).2 = [] ∧
    (OnGenerateMediaCaptions s).1.queues = s.queues ∧
    queueAt (OnGenerateMediaCaptions s).1 q = queueAt s q ∧
    (OnGenerateMediaCaptions s).1.SampleQueue = some q ∧
    (OnGenerateMediaCaptions s).1.LastPlaySampleTime = FTimespan.MinValue := by
  have _ := hqueue
  rw [OnGenerateMediaCaptions_of_paused s hrate]
  simp [broadcasts, queueAt, hq]

/-- C3 at a concrete input: paused with two queued samples. -/
theorem paused_drain_consumes_nothing_witness :
    (OnGenerateMediaCaptions
      { construct with
          bIsActive := true, SampleQueue := some 0, LastPlaySampleTime := 5
          queues := [[⟨10, "a"⟩, ⟨20, "b"⟩]] }).2 = [] ∧
    (OnGenerateMediaCaptions
      { construct with
          bIsActive := true, SampleQueue := some 0, LastPlaySampleTime := 5
          queues := [[⟨10, "a"⟩, ⟨20, "b"⟩]] }).1.queues = [[⟨10, "a"⟩, ⟨20, "b"⟩]] ∧
    (OnGenerateMediaCaptions
      { construct with
          bIsActive := true, SampleQueue := some 0, LastPlaySampleTime := 5
          queues := [[⟨10, "a"⟩, ⟨20, "b"⟩]] }).1.LastPlaySampleTime = FTimespan.MinValue :=
  have h := paused_drain_consumes_nothing
    { construct with
        bIsActive := true, SampleQueue := some 0, LastPlaySampleTime := 5
        queues := [[⟨10, "a"⟩, ⟨20, "b"⟩]] }
    0 rfl rfl (by decide)
  ⟨h.1, h.2.2.1, h.2.2.2.2.2⟩

/-- C2 (ordering): with samples `S` held in the bound queue in enqueue order,
an active consumer, the same facade at every frame (no rebind), a non-zero
producer rate at every frame and nothing else enqueued, as many consecutive
frame ticks as there are samples dequeue and broadcast exactly the samples of
`S` in order, one per tick, and the queue is empty afterwards. -/
theorem ticks_deliver_in_enqueue_order (F q : Nat) (S : List Sample)
    (ws : List World) (s : State)
    (hlen : ws.length = S.length)
    (hactive : IsActive s = true)
    (hbound : s.CurrentPlayerFacade = some F)
    (hplay : ∀ w ∈ ws, ∃ p, s.CurrentPlayer.bind w = some p ∧ p.facade = F ∧ p.rate ≠ 0)
    (hq : s.SampleQueue = some q)
    (hqueue : s.queues[q]? = some S) :
    (ticks ws s).2 = S.map (fun x => [Event.Dequeue q x, Event.Broadcast x.text]) ∧
    (ticks ws s).2.map broadcasts = S.map (fun x => [x.text]) ∧
    (ticks ws s).1.SampleQueue = some q ∧
    (ticks ws s).1.queues[q]? = some [] := by
  have h := ticks_drain F q S ws s hlen hactive hbound hplay hq hqueue
  refine ⟨h.1, ?_, h.2.2, h.2.1⟩
  rw [h.1, List.map_map]
  apply List.map_congr_left
  intro x _
  simp [broadcasts]

/-- C2 at a concrete input: three samples, three ticks at different rates. -/
theorem ticks_deliver_in_enqueue_order_witness :
    (ticks [worldOf 0 ⟨7, 1, 40⟩, worldOf 0 ⟨7, 2, 41⟩, worldOf 0 ⟨7, -1, 42⟩]
      { construct with
          bIsActive := true, CurrentPlayer := some 0, CurrentPlayerFacade := some 7
          SampleQueue := some 0
          queues := [[⟨10, "a"⟩, ⟨20, "b"⟩, ⟨30, "c"⟩]] }).2.map broadcasts
      = [["a"], ["b"], ["c"]] ∧
    (ticks [worldOf 0 ⟨7, 1, 40⟩, worldOf 0 ⟨7, 2, 41⟩, worldOf 0 ⟨7, -1, 42⟩]
      { construct with
          bIsActive := true, CurrentPlayer := some 0, CurrentPlayerFacade := some 7
          SampleQueue := some 0
          queues := [[⟨10, "a"⟩, ⟨20, "b"⟩, ⟨30, "c"⟩]] }).1.queues[0]? = some [] :=
  have h := ticks_deliver_in_enqueue_order 7 0 [⟨10, "a"⟩, ⟨20, "b"⟩, ⟨30, "c"⟩]
    [worldOf 0 ⟨7, 1, 40⟩, worldOf 0 ⟨7, 2, 41⟩, worldOf 0 ⟨7, -1, 42⟩]
    { construct with
        bIsActive := true, CurrentPlayer := some 0, CurrentPlayerFacade := some 7
        SampleQueue := some 0
        queues := [[⟨10, "a"⟩, ⟨20, "b"⟩, ⟨30, "c"⟩]] }
    rfl rfl rfl
    (by
      intro w hw
      simp only [List.mem_cons, List.mem_singleton, List.not_mem_nil, or_false] at hw
      rcases hw with h | h | h <;> subst h
      · exact ⟨⟨7, 1, 40⟩, rfl, rfl, by decide⟩
      · exact ⟨⟨7, 2, 41⟩, rfl, rfl, by decide⟩
      · exact ⟨⟨7, -1, 42⟩, rfl, rfl, by decide⟩)
    rfl rfl
  ⟨h.2.1, h.2.2.2⟩

/-- C7 (no producer): when the current player resolves to null at every frame,
whatever the state the consumer starts in (active or not), no tick makes any
call (so nothing is ever broadcast), and after each tick the cached rate is 0,
the cached time is zero, no queue is bound and `LastPlaySampleTime` is
`FTimespan::MinValue`. -/
theorem ticks_without_player_are_silent (ws : List World) (s : State)
    (hnull : ∀ w ∈ ws, s.CurrentPlayer.bind w = none) :
    (ticks ws s).2 = ws.map (fun _ => []) ∧
    (ticks ws s).2.map broadcasts = ws.map (fun _ => []) ∧
    ∀ k, 0 < k → k ≤ ws.length →
      (ticks (ws.take k) s).1.CachedRate = 0 ∧
      (ticks (ws.take k) s).1.CachedTime = FTimespan.Zero ∧
      (ticks (ws.take k) s).1.SampleQueue = none ∧
      (ticks (ws.take k) s).1.LastPlaySampleTime = FTimespan.MinValue := by
  have h := ticks_of_null ws s hnull
  refine ⟨h.1, ?_, ?_⟩
  · rw [h.1, List.map_map]
    apply List.map_congr_left
    intro _ _
    rfl
  · intro k hk hle
    have hk2 := ticks_of_null (ws.take k) s (fun w hw => hnull w (List.mem_of_mem_take hw))
    apply hk2.2.2
    intro hnil
    have hlen : (ws.take k).length = 0 := by rw [hnil]; rfl
    rw [List.length_take] at hlen
    omega

/-- C7 at a concrete input: a bound, active consumer whose player pointer is
null, two ticks. -/
theorem ticks_without_player_are_silent_witness :
    (ticks [worldOf 0 ⟨7, 1, 40⟩, worldOf 0 ⟨7, 1, 41⟩]
      { construct with
          bIsActive := true, CachedRate := 3, CachedTime := 9
          CurrentPlayerFacade := some 7, SampleQueue := some 0, LastPlaySampleTime := 5
          queues := [[⟨10, "a"⟩]] }).2 = [[], []] ∧
    (ticks ([worldOf 0 ⟨7, 1, 40⟩, worldOf 0 ⟨7, 1, 41⟩].take 1)
      { construct with
          bIsActive := true, CachedRate := 3, CachedTime := 9
          CurrentPlayerFacade := some 7, SampleQueue := some 0, LastPlaySampleTime := 5
          queues := [[⟨10, "a"⟩]] }).1.SampleQueue = none :=
  have h := ticks_without_player_are_silent
    [worldOf 0 ⟨7, 1, 40⟩, worldOf 0 ⟨7, 1, 41⟩]
    { construct with
        bIsActive := true, CachedRate := 3, CachedTime := 9
        CurrentPlayerFacade := some 7, SampleQueue := some 0, LastPlaySampleTime := 5
        queues := [[⟨10, "a"⟩]] }
    (by intro w _; rfl)
  ⟨h.1, (h.2.2 1 (by decide) (by decide)).2.2.1⟩

/-- C6 (unbound to bound), evaluated where it fails: the player at address 0
(facade 7) is set, the consumer is activated and ticked (queue 0 is bound),
the player is cleared to null and a tick runs (the queue is dropped, the
recorded facade is kept), and the same player is set back.  After the next
`UpdatePlayer` the consumer is active, the player is live and the recorded
facade is the facade of the player, but no queue is bound; nor is any bound by
further ticks. -/
theorem same_player_after_null_stays_unbound :
    (run [Op.SetMediaPlayer (some 0), Op.Activate false, Op.Tick (worldOf 0 ⟨7, 1, 0⟩)]
      construct).1.SampleQueue = some 0 ∧
    IsActive (run [Op.SetMediaPlayer (some 0), Op.Activate false, Op.Tick (worldOf 0 ⟨7, 1, 0⟩),
      Op.SetMediaPlayer none, Op.Tick (worldOf 0 ⟨7, 1, 1⟩), Op.SetMediaPlayer (some 0)]
      construct).1 = true ∧
    (run [Op.SetMediaPlayer (some 0), Op.Activate false, Op.Tick (worldOf 0 ⟨7, 1, 0⟩),
      Op.SetMediaPlayer none, Op.Tick (worldOf 0 ⟨7, 1, 1⟩), Op.SetMediaPlayer (some 0)]
      construct).1.CurrentPlayer.bind (worldOf 0 ⟨7, 1, 2⟩) = some ⟨7, 1, 2⟩ ∧
    (UpdatePlayer (worldOf 0 ⟨7, 1, 2⟩)
      (run [Op.SetMediaPlayer (some 0), Op.Activate false, Op.Tick (worldOf 0 ⟨7, 1, 0⟩),
        Op.SetMediaPlayer none, Op.Tick (worldOf 0 ⟨7, 1, 1⟩), Op.SetMediaPlayer (some 0)]
        construct).1).1.CurrentPlayerFacade = some 7 ∧
    (UpdatePlayer (worldOf 0 ⟨7, 1, 2⟩)
      (run [Op.SetMediaPlayer (some 0), Op.Activate false, Op.Tick (worldOf 0 ⟨7, 1, 0⟩),
        Op.SetMediaPlayer none, Op.Tick (worldOf 0 ⟨7, 1, 1⟩), Op.SetMediaPlayer (some 0)]
        construct).1).1.SampleQueue = none ∧
    (run [Op.SetMediaPlayer (some 0), Op.Activate false, Op.Tick (worldOf 0 ⟨7, 1, 0⟩),
      Op.SetMediaPlayer none, Op.Tick (worldOf 0 ⟨7, 1, 1⟩), Op.SetMediaPlayer (some 0),
      Op.Tick (worldOf 0 ⟨7, 1, 2⟩), Op.Tick (worldOf 0 ⟨7, 1, 3⟩)]
      construct).1.SampleQueue = none := by
  refine ⟨rfl, rfl, rfl, rfl, rfl, rfl⟩

/-- C9 as stated fails: with the same player and facade throughout, a tick, a
`Deactivate`, an `Activate` and a second tick create and register two queues. -/
theorem reactivation_registers_second_queue :
    (run [Op.Activate false, Op.Tick (worldOf 0 ⟨7, 1, 0⟩), Op.Deactivate, Op.Activate false,
        Op.Tick (worldOf 0 ⟨7, 1, 1⟩)]
      (SetMediaPlayer (some 0) construct)).2 =
      [Event.AddCaptionSampleSink 7 0, Event.AddCaptionSampleSink 7 1] ∧
    ¬ sinksAdded
      (run [Op.Activate false, Op.Tick (worldOf 0 ⟨7, 1, 0⟩), Op.Deactivate, Op.Activate false,
          Op.Tick (worldOf 0 ⟨7, 1, 1⟩)]
        (SetMediaPlayer (some 0) construct)).2 ≤ 1 := by
  refine ⟨rfl, ?_⟩
  decide

/-- C9 (amended): over every sequence of frame ticks, `Activate` calls,
`Deactivate` calls and producer enqueues during which the current player and
its facade stay the same, the number of queues created and registered
(`AddCaptionSampleSink` calls) is at most one plus the number of `Deactivate`
calls in the sequence; so at most one when the sequence has no `Deactivate`. -/
theorem one_queue_per_activation (F : Nat) (ops : List Op) (s : State)
    (hkeep : ∀ o ∈ ops, keepsProducer s.CurrentPlayer F o) :
    sinksAdded (run ops s).2 ≤ 1 + deactivations ops ∧
    (deactivations ops = 0 → sinksAdded (run ops s).2 ≤ 1) := by
  have h := run_pending F ops s hkeep
  have hp : pending F s ≤ 1 := by
    unfold pending
    split_ifs <;> omega
  constructor
  · omega
  · intro h0
    omega

/-- C9 (amended) at a concrete input: three ticks and two `Activate` calls on
an active consumer with the same player create one queue. -/
theorem one_queue_per_activation_witness :
    sinksAdded
      (run [Op.Tick (worldOf 0 ⟨7, 1, 0⟩), Op.Activate true, Op.Tick (worldOf 0 ⟨7, 0, 1⟩),
          Op.Activate false, Op.Tick (worldOf 0 ⟨7, 2, 2⟩)]
        { construct with bIsActive := true, CurrentPlayer := some 0 }).2 ≤ 1 :=
  (one_queue_per_activation 7
    [Op.Tick (worldOf 0 ⟨7, 1, 0⟩), Op.Activate true, Op.Tick (worldOf 0 ⟨7, 0, 1⟩),
      Op.Activate false, Op.Tick (worldOf 0 ⟨7, 2, 2⟩)]
    { construct with bIsActive := true, CurrentPlayer := some 0 }
    (by
      intro o ho
      simp only [List.mem_cons, List.mem_singleton, List.not_mem_nil, or_false] at ho
      rcases ho with h | h | h | h | h <;> subst h
      · exact ⟨⟨7, 1, 0⟩, rfl, rfl⟩
      · exact True.intro
      · exact ⟨⟨7, 0, 1⟩, rfl, rfl⟩
      · exact True.intro
      · exact ⟨⟨7, 2, 2⟩, rfl, rfl⟩)).2 rfl

/-- C10 as stated fails: a sample with timestamp 10 is delivered, then
`Deactivate`, `Activate` and a tick that finds the new queue empty at a
non-zero rate.  Nothing is broadcast after the activation, yet
`LastPlaySampleTime` is still 10, not `FTimespan::MinValue`. -/
theorem marker_survives_reactivation :
    broadcasts
      (run [Op.Tick (worldOf 0 ⟨7, 1, 2⟩)]
        (run [Op.SetMediaPlayer (some 0), Op.Activate false, Op.Tick (worldOf 0 ⟨7, 1, 0⟩),
            Op.Enqueue 0 ⟨10, "a"⟩, Op.Tick (worldOf 0 ⟨7, 1, 1⟩), Op.Deactivate,
            Op.Activate false]
          construct).1).2 = [] ∧
    (run [Op.Tick (worldOf 0 ⟨7, 1, 2⟩)]
      (run [Op.SetMediaPlayer (some 0), Op.Activate false, Op.Tick (worldOf 0 ⟨7, 1, 0⟩),
          Op.Enqueue 0 ⟨10, "a"⟩, Op.Tick (worldOf 0 ⟨7, 1, 1⟩), Op.Deactivate,
          Op.Activate false]
        construct).1).1.LastPlaySampleTime = 10 ∧
    (run [Op.Tick (worldOf 0 ⟨7, 1, 2⟩)]
      (run [Op.SetMediaPlayer (some 0), Op.Activate false, Op.Tick (worldOf 0 ⟨7, 1, 0⟩),
          Op.Enqueue 0 ⟨10, "a"⟩, Op.Tick (worldOf 0 ⟨7, 1, 1⟩), Op.Deactivate,
          Op.Activate false]
        construct).1).1.LastPlaySampleTime ≠ FTimespan.MinValue := by
  refine ⟨rfl, rfl, ?_⟩
  decide

/-- C10 (amended): in every state reached from construction by
`SetMediaPlayer`, `Activate`, `Deactivate`, frame ticks and producer enqueues,
`LastPlaySampleTime` is either `FTimespan::MinValue` or the timestamp of the
most recently dequeued and broadcast sample; it is `MinValue` while nothing
has been broadcast since construction; and `Deactivate` followed by `Activate`
leaves it as it is. -/
theorem marker_is_none_or_last_delivered (ops : List Op) (bReset : Bool) :
    ((run ops construct).1.LastPlaySampleTime = FTimespan.MinValue ∨
      ∃ q x, (dequeued (run ops construct).2).getLast? = some (q, x) ∧
        x.time = (run ops construct).1.LastPlaySampleTime ∧
        (broadcasts (run ops construct).2).getLast? = some x.text) ∧
    (broadcasts (run ops construct).2 = [] →
      (run ops construct).1.LastPlaySampleTime = FTimespan.MinValue) ∧
    (Activate bReset (Deactivate (run ops construct).1)).LastPlaySampleTime =
      (run ops construct).1.LastPlaySampleTime := by
  have hp : broadcasts (run ops construct).2 =
      (dequeued (run ops construct).2).map (fun e => e.2.text) := run_paired ops construct
  have h := run_marker ops construct [] (Or.inl rfl)
  rw [List.nil_append] at h
  refine ⟨?_, ?_, ?_⟩
  · rcases h with h | ⟨q, x, h1, h2⟩
    · exact Or.inl h
    · refine Or.inr ⟨q, x, h1, h2, ?_⟩
      rw [hp, List.getLast?_map, h1]
      rfl
  · intro hnone
    rcases h with h | ⟨q, x, h1, _⟩
    · exact h
    · rw [hp, List.map_eq_nil_iff] at hnone
      rw [hnone] at h1
      cases h1
  · rw [Deactivate_eq, Activate_eq]
    split_ifs <;> rfl

/-- C10 (amended) at a concrete input: two ticks of an active, bound consumer
whose queue stays empty leave the marker at `MinValue`. -/
theorem marker_is_none_or_last_delivered_witness :
    broadcasts
      (run [Op.SetMediaPlayer (some 0), Op.Activate false, Op.Tick (worldOf 0 ⟨7, 1, 0⟩),
          Op.Tick (worldOf 0 ⟨7, 1, 1⟩)]
        construct).2 = [] ∧
    (run [Op.SetMediaPlayer (some 0), Op.Activate false, Op.Tick (worldOf 0 ⟨7, 1, 0⟩),
        Op.Tick (worldOf 0 ⟨7, 1, 1⟩)]
      construct).1.LastPlaySampleTime = FTimespan.MinValue :=
  ⟨rfl,
   (marker_is_none_or_last_delivered
      [Op.SetMediaPlayer (some 0), Op.Activate false, Op.Tick (worldOf 0 ⟨7, 1, 0⟩),
        Op.Tick (worldOf 0 ⟨7, 1, 1⟩)]
      false).2.1 rfl⟩

end MediaCaptions
